import Mathlib

/-!
Verification of the latentia SQL-optimization core against its source.

The Go source is embedded shallowly: Go strings become `List Char`
(the inputs of interest are ASCII, where Go's byte-wise operations
agree with the character-wise model), machine integers become `Nat`,
`float64` becomes `ℚ` (the confidence arithmetic uses small decimal
constants whose comparisons with the clamp bounds are exact), and the
backing store becomes explicit state passed through each operation.
Loops that are not structurally recursive are given explicit fuel so
that non-termination of the source loop is observable as `none`.
-/

deriving instance DecidableEq for Except

/-- Go strings, modelled as lists of characters. -/
abbrev Str := List Char

/-- Convert a Lean string literal to the `Str` model. -/
def str (s : String) : Str := s.toList

/-- Whitespace class of Go's regexp `\s`: `[\t\n\f\r ]`. -/
def isWsRe (c : Char) : Bool :=
  c = ' ' || c = '\t' || c = '\n' || c = Char.ofNat 12 || c = '\r'

/-- Whitespace recognised by Go's `unicode.IsSpace` (ASCII part plus the
two Latin-1 spaces), used by `strings.TrimSpace`. -/
def isWsGo (c : Char) : Bool :=
  c = ' ' || c = '\t' || c = '\n' || c = Char.ofNat 11 || c = Char.ofNat 12 ||
  c = '\r' || c = Char.ofNat 0x85 || c = Char.ofNat 0xA0

/-- ASCII lowering of one character, as `strings.ToLower` acts on ASCII.
(Our model leaves non-ASCII characters unchanged; no Unicode character
lowercases to an uppercase ASCII letter, so this is faithful for the
facts proved below.) -/
def goToLowerChar (c : Char) : Char :=
  match c with
  | 'A' => 'a' | 'B' => 'b' | 'C' => 'c' | 'D' => 'd' | 'E' => 'e'
  | 'F' => 'f' | 'G' => 'g' | 'H' => 'h' | 'I' => 'i' | 'J' => 'j'
  | 'K' => 'k' | 'L' => 'l' | 'M' => 'm' | 'N' => 'n' | 'O' => 'o'
  | 'P' => 'p' | 'Q' => 'q' | 'R' => 'r' | 'S' => 's' | 'T' => 't'
  | 'U' => 'u' | 'V' => 'v' | 'W' => 'w' | 'X' => 'x' | 'Y' => 'y'
  | 'Z' => 'z'
  | other => other

/-- Model of `strings.ToLower`. -/
def strToLower (s : Str) : Str := s.map goToLowerChar

/-- Model of `strings.Contains(s, sub)`. -/
def goContains (s sub : Str) : Bool :=
  if sub.isPrefixOf s then true
  else
    match s with
    | [] => false
    | _ :: t => goContains t sub

/-- Strip a literal from the front, returning the remainder. -/
def stripLit (pat s : Str) : Option Str :=
  if pat.isPrefixOf s then some (s.drop pat.length) else none

/-- Model of `strings.TrimSpace`. -/
def goTrimSpace (s : Str) : Str :=
  ((s.dropWhile isWsGo).reverse.dropWhile isWsGo).reverse

/-- Model of `strings.Count(s, ",")` for a single-character needle. -/
def countChar (s : Str) (c : Char) : Nat := s.countP (· = c)

/-- Model of `strings.ReplaceAll(s, pat, rep)` for a nonempty pattern
(the Go function's empty-pattern behaviour is never exercised here). -/
def replaceAll (pat rep : Str) : Str → Str
  | [] => []
  | c :: t =>
    if h : pat.isPrefixOf (c :: t) ∧ pat ≠ [] then
      rep ++ replaceAll pat rep ((c :: t).drop pat.length)
    else
      c :: replaceAll pat rep t
termination_by s => s.length
decreasing_by
  · simp only [List.length_drop, List.length_cons]
    have : pat.length ≠ 0 := by
      intro h0
      exact h.2 (List.eq_nil_of_length_eq_zero h0)
    omega
  · simp [Nat.lt_succ_self]

/-- First-seen-order deduplication (`removeDuplicates` in the source,
and the dedup inside `extractTables`). -/
def dedupFirst (seen : List Str) : List Str → List Str
  | [] => []
  | x :: xs => if seen.contains x then dedupFirst seen xs
               else x :: dedupFirst (x :: seen) xs

/-! ## Document chunker (`chunkText` in the source)

```
func chunkText(text string, chunkSize, overlap int) []string {
    if len(text) <= chunkSize { return []string{text} }
    var chunks []string
    start := 0
    for start < len(text) {
        end := start + chunkSize
        if end > len(text) { end = len(text) }
        chunk := text[start:end]
        chunks = append(chunks, chunk)
        if end >= len(text) { break }
        start += chunkSize - overlap
    }
    return chunks
}
```

The loop is modelled with fuel: `none` means the fuel ran out, which for
every fuel value means the source loop has not terminated. The model
uses `Nat` subtraction for `chunkSize - overlap`; it is exact for
`overlap ≤ chunkSize` (for `overlap > chunkSize` the Go loop aborts
abnormally on a negative slice index, likewise never returning a
chunk list). -/
def chunkLoop (text : Str) (chunkSize overlap : Nat) : Nat → Nat → Option (List Str)
  | 0, _ => none
  | fuel + 1, start =>
    if start < text.length then
      let e := min (start + chunkSize) text.length
      let c := (text.drop start).take chunkSize
      if text.length ≤ e then some [c]
      else (chunkLoop text chunkSize overlap fuel (start + (chunkSize - overlap))).map (c :: ·)
    else some []

/-- Model of the chunker: `chunkText text size overlap` is `some chunks` when the source loop
terminates within `len(text) + 1` iterations, `none` otherwise. -/
def chunkText (text : Str) (chunkSize overlap : Nat) : Option (List Str) :=
  if text.length ≤ chunkSize then some [text]
  else chunkLoop text chunkSize overlap (text.length + 1) 0

/-- Concatenation of all chunks after the first with their first
`overlap` characters removed. -/
def glueTail (overlap : Nat) (l : List Str) : Str :=
  (l.map (List.drop overlap)).flatten

/-- The round-trip reassembly of the spec: the first chunk, then every
subsequent chunk with its leading `overlap` characters dropped. -/
def glue (overlap : Nat) : List Str → Str
  | [] => []
  | c :: r => c ++ glueTail overlap r

theorem chunkLoop_glue (text : Str) (cs ov : Nat) (hov : ov < cs) :
    ∀ fuel start, text.length - start < fuel →
      ∃ chunks, chunkLoop text cs ov fuel start = some chunks ∧
        glueTail ov chunks = text.drop (start + ov) ∧
        glue ov chunks = text.drop start := by
  intro fuel
  induction fuel with
  | zero => intro start h; omega
  | succ n ih =>
    intro start h
    by_cases hs : start < text.length
    · by_cases he : text.length ≤ min (start + cs) text.length
      · refine ⟨[(text.drop start).take cs], ?_, ?_, ?_⟩
        · simp [chunkLoop, hs, he]
        · have hlen : (text.drop start).length ≤ cs := by
            simp only [List.length_drop]
            omega
          rw [List.take_of_length_le hlen]
          simp [glueTail, List.drop_drop, Nat.add_comm]
        · have hlen : (text.drop start).length ≤ cs := by
            simp only [List.length_drop]
            omega
          rw [List.take_of_length_le hlen]
          simp [glue, glueTail]
      · have h1 : start + cs < text.length := by
          rcases Nat.le_total (start + cs) text.length with h2 | h2
          · rcases Nat.lt_or_ge (start + cs) text.length with h3 | h3
            · exact h3
            · exact absurd (Nat.le_trans h3 (Nat.le_refl _)) (by omega)
          · exact absurd (by omega : text.length ≤ min (start + cs) text.length) he
        obtain ⟨chunks', hc, ht, hg⟩ := ih (start + (cs - ov)) (by omega)
        have hkey : start + (cs - ov) + ov = start + cs := by omega
        refine ⟨((text.drop start).take cs) :: chunks', ?_, ?_, ?_⟩
        · simp [chunkLoop, hs, he, hc]
        · have e1 : ((text.drop start).take cs).drop ov
              = ((text.drop (start + ov)).take (cs - ov)) := by
            rw [List.drop_take, List.drop_drop]
          have e2 : text.drop (start + cs) = (text.drop (start + ov)).drop (cs - ov) := by
            rw [List.drop_drop]
            congr 1
            omega
          calc glueTail ov (((text.drop start).take cs) :: chunks')
              = ((text.drop start).take cs).drop ov ++ glueTail ov chunks' := by
                simp [glueTail]
            _ = ((text.drop (start + ov)).take (cs - ov))
                  ++ ((text.drop (start + ov)).drop (cs - ov)) := by
                rw [e1, ht, hkey, e2]
            _ = text.drop (start + ov) := List.take_append_drop _ _
        · have e2 : text.drop (start + cs) = (text.drop start).drop cs := by
            rw [List.drop_drop, Nat.add_comm]
          calc glue ov (((text.drop start).take cs) :: chunks')
              = ((text.drop start).take cs) ++ glueTail ov chunks' := by
                simp [glue]
            _ = ((text.drop start).take cs) ++ ((text.drop start).drop cs) := by
                rw [ht, hkey, e2]
            _ = text.drop start := List.take_append_drop _ _
    · refine ⟨[], by simp [chunkLoop, hs], ?_, ?_⟩
      · have : text.length ≤ start + ov := by omega
        simp [glueTail, List.drop_eq_nil_of_le this]
      · have : text.length ≤ start := by omega
        simp [glue, List.drop_eq_nil_of_le this]

/-- Claim C7 (confirmed). For every text and every `chunkSize > overlap ≥ 0`,
`chunkText` terminates and concatenating the first chunk with every
subsequent chunk after dropping its first `overlap` characters
reconstructs the original text exactly; when `len(text) ≤ chunkSize`
the result is the single chunk equal to the text itself. -/
theorem chunkText_roundtrip (text : Str) (chunkSize overlap : Nat)
    (h : overlap < chunkSize) :
    ∃ chunks, chunkText text chunkSize overlap = some chunks ∧
      glue overlap chunks = text ∧
      (text.length ≤ chunkSize → chunks = [text]) := by
  by_cases hle : text.length ≤ chunkSize
  · exact ⟨[text], by simp [chunkText, hle], by simp [glue, glueTail], fun _ => rfl⟩
  · obtain ⟨chunks, hc, _, hg⟩ :=
      chunkLoop_glue text chunkSize overlap h (text.length + 1) 0 (by omega)
    exact ⟨chunks, by simp [chunkText, hle, hc], by simpa using hg,
      fun hx => absurd hx hle⟩

/-- Witness for C7 at `text = "abcdefgh"`, `chunkSize = 3`, `overlap = 1`. -/
theorem chunkText_roundtrip_witness :
    1 < 3 ∧ ∃ chunks, chunkText (str "abcdefgh") 3 1 = some chunks ∧
      glue 1 chunks = str "abcdefgh" ∧
      ((str "abcdefgh").length ≤ 3 → chunks = [str "abcdefgh"]) :=
  ⟨by decide, chunkText_roundtrip (str "abcdefgh") 3 1 (by decide)⟩

/-- Claim C1 (code_bug). The source never validates `overlap < chunkSize`:
at `text = "ab"`, `chunkSize = 1`, `overlap = 1` the window start never
advances (`start += chunkSize - overlap` adds 0), so the loop runs
forever — for every fuel value the loop fails to finish, and
`chunkText` yields no chunk list, contradicting the claimed
termination for `overlap ≥ size`. -/
theorem chunkText_overlap_eq_size_diverges :
    (∀ fuel, chunkLoop (str "ab") 1 1 fuel 0 = none) ∧
      chunkText (str "ab") 1 1 = none := by
  have h : ∀ fuel, chunkLoop (str "ab") 1 1 fuel 0 = none := by
    intro fuel
    induction fuel with
    | zero => rfl
    | succ n ih =>
      have e : str "ab" = ['a', 'b'] := rfl
      rw [e] at ih ⊢
      simp [chunkLoop, ih]
  refine ⟨h, ?_⟩
  have h3 := h 3
  have e : str "ab" = ['a', 'b'] := rfl
  rw [e] at h3 ⊢
  simp [chunkText, h3]

/-! ## Pattern analyzer (`internal/analyze/patterns.go`)

The analyzer's three compiled regexps are embedded as dedicated
scanners with Go's leftmost-first, non-overlapping `FindAll` semantics:

* `joinRegex`: `(?i)\b(INNER\s+JOIN|LEFT\s+JOIN|RIGHT\s+JOIN|FULL\s+JOIN|JOIN)\b`
* `tableRegex`: `(?i)\b(?:FROM|JOIN)\s+([a-zA-Z_][a-zA-Z0-9_]*)`
* `subqueryRegex`: `\([^)]*SELECT[^)]*\)` (note: case-sensitive)

Within each pattern, the greedy `\s+`/`\s*` pieces are deterministic
because the character that must follow is never itself whitespace, and
`subqueryRegex`'s closing `)` is forced to be the first `)` after the
opening `(` since no inner piece can match `)`. -/

/-- RE2 word character `\w` (for `\b` boundaries). -/
def isWordChar (c : Char) : Bool :=
  ('a' ≤ c && c ≤ 'z') || ('A' ≤ c && c ≤ 'Z') || ('0' ≤ c && c ≤ '9') || c = '_'

/-- Case-insensitive literal strip: `pat` must be lowercase; input
characters are compared after ASCII lowering. Returns the remainder. -/
def ciStripLit (pat s : Str) : Option Str :=
  match pat, s with
  | [], rest => some rest
  | _ :: _, [] => none
  | p :: ps, c :: cs => if goToLowerChar c = p then ciStripLit ps cs else none

/-- Matcher for a `WORD\s+JOIN\b` alternative of `joinRegex`: the
word, at least one `\s`, `join`, then a boundary. -/
def joinAlt1 (word : Str) (s : Str) : Option Str :=
  match ciStripLit word s with
  | none => none
  | some r1 =>
    let r2 := r1.dropWhile isWsRe
    if r1.length = r2.length then none  -- \s+ needs at least one
    else
      match ciStripLit (str "join") r2 with
      | none => none
      | some r3 =>
        match r3 with
        | [] => some []
        | c :: _ => if isWordChar c then none else some r3

/-- Matcher for the bare `JOIN\b` alternative of `joinRegex`. -/
def joinBare (s : Str) : Option Str :=
  match ciStripLit (str "join") s with
  | none => none
  | some r =>
    match r with
    | [] => some []
    | c :: _ => if isWordChar c then none else some r

/-- One attempt of `joinRegex` at the current position (the position's
`\b` has already been checked). Tries the alternatives in the source
order and returns the remainder after the match. -/
def joinAltAt (s : Str) : Option Str :=
  (joinAlt1 (str "inner") s).orElse fun _ =>
  (joinAlt1 (str "left") s).orElse fun _ =>
  (joinAlt1 (str "right") s).orElse fun _ =>
  (joinAlt1 (str "full") s).orElse fun _ =>
  joinBare s

/-- Count of `joinRegex` matches (`FindAllString(sql, -1)` length):
left-to-right scan, skipping past each match; `prevIsWord` tracks the
`\b` condition at the current position. -/
def joinScan (fuel : Nat) (prevIsWord : Bool) (s : Str) : Nat :=
  match fuel, s with
  | 0, _ => 0
  | _, [] => 0
  | fuel + 1, c :: t =>
    match (if prevIsWord then none else joinAltAt (c :: t)) with
    | some rest => 1 + joinScan fuel true rest  -- every alternative ends in 'n', a word char
    | none => joinScan fuel (isWordChar c) t

def joinCount (s : Str) : Nat := joinScan (s.length + 1) false s

/-- First character of an identifier: `[a-zA-Z_]`. -/
def isIdentStart (c : Char) : Bool :=
  ('a' ≤ c && c ≤ 'z') || ('A' ≤ c && c ≤ 'Z') || c = '_'

/-- Subsequent identifier characters: `[a-zA-Z0-9_]`. -/
def isIdentChar (c : Char) : Bool := isWordChar c

/-- One attempt of `tableRegex` at the current position: case-insensitive
`FROM` or `JOIN`, `\s+`, then the captured identifier. Returns the
capture and the remainder after it. -/
def tableAltAt (s : Str) : Option (Str × Str) :=
  match (ciStripLit (str "from") s).orElse (fun _ => ciStripLit (str "join") s) with
  | none => none
  | some r1 =>
    let r2 := r1.dropWhile isWsRe
    if r1.length = r2.length then none  -- \s+ needs at least one
    else
      match r2 with
      | [] => none
      | c :: _ =>
        if isIdentStart c then
          some (r2.takeWhile isIdentChar, r2.dropWhile isIdentChar)
        else none

/-- Model of `tableRegex.FindAllStringSubmatch(sql, -1)`, collecting the
captured identifiers in order. -/
def tableScan (fuel : Nat) (prevIsWord : Bool) (s : Str) : List Str :=
  match fuel, s with
  | 0, _ => []
  | _, [] => []
  | fuel + 1, c :: t =>
    match (if prevIsWord then none else tableAltAt (c :: t)) with
    | some (cap, rest) => cap :: tableScan fuel true rest  -- idents end in a word char
    | none => tableScan fuel (isWordChar c) t

/-- Model of `extractTables`: scan the (trimmed, original-case) SQL, trim each
capture, strip an alias after a space (dead code: captures never
contain spaces), drop empties, and deduplicate first-seen. -/
def extractTables (sql : Str) : List Str :=
  let caps := tableScan (sql.length + 1) false sql
  let cleaned := caps.filterMap fun cap =>
    let t1 := goTrimSpace cap
    let pre := t1.takeWhile (· ≠ ' ')
    let t2 := if pre.length < t1.length && pre.length > 0 then pre else t1
    if t2 = [] then none else some t2
  dedupFirst [] cleaned

/-- One attempt of `subqueryRegex` (`\([^)]*SELECT[^)]*\)`) after an
opening `(`: the closing `)` is forced to be the first `)` that
follows, and `SELECT` (case-sensitive) must occur in between. Returns
the remainder after the `)`. -/
def subqAfterParen (t : Str) : Option Str :=
  match t.dropWhile (· ≠ ')') with
  | ')' :: r =>
    if goContains (t.takeWhile (· ≠ ')')) (str "SELECT") then some r else none
  | _ => none

/-- Count of `subqueryRegex` matches. -/
def subqueryScan (fuel : Nat) (s : Str) : Nat :=
  match fuel, s with
  | 0, _ => 0
  | _, [] => 0
  | fuel + 1, c :: t =>
    if c = '(' then
      match subqAfterParen t with
      | some rest => 1 + subqueryScan fuel rest
      | none => subqueryScan fuel t
    else subqueryScan fuel t

def subqueryCount (s : Str) : Nat := subqueryScan (s.length + 1) s

/-- After a `(` inside the function-in-WHERE pattern: the first `)`
must be followed by `\s*` and one of `=<>`. -/
def fiwParen (t : Str) : Bool :=
  match t.dropWhile (· ≠ ')') with
  | ')' :: r =>
    match r.dropWhile isWsRe with
    | x :: _ => x = '=' || x = '<' || x = '>'
    | [] => false
  | _ => false

/-- Search for `[^=]*\([^)]*\)\s*[=<>]` from the current position:
candidate `(`s are scanned left to right and must appear before any
`=`. -/
def fiwAfter : Str → Bool
  | [] => false
  | c :: t =>
    if c = '(' && fiwParen t then true
    else if c = '=' then false
    else fiwAfter t

/-- Existence of a `(?i)WHERE[^=]*\([^)]*\)\s*[=<>]` match (`MatchString`). -/
def funcInWhereMatch : Str → Bool
  | [] => false
  | s@(_ :: t) =>
    match ciStripLit (str "where") s with
    | some r => fiwAfter r || funcInWhereMatch t
    | none => funcInWhereMatch t

/-- Model of `detectQueryType` (first match wins), applied to the lowercased SQL. -/
def detectQueryType (sql : Str) : Str :=
  if goContains sql (str "sleep(") then str "sleep-test"
  else
    let joinC := joinCount sql
    if joinC > 0 then
      if joinC ≥ 3 then str "complex-join" else str "simple-join"
    else if goContains sql (str "group by") || goContains sql (str "order by") then
      str "aggregation"
    else if goContains sql (str "like") && goContains sql (str "%") then
      str "pattern-search"
    else if goContains sql (str "select *") then str "full-select"
    else if goContains sql (str "where") then str "filtered-select"
    else str "basic-select"

/-- Model of `detectAntiPatterns`, applied to the lowercased SQL: the seven
independent checks, appended in source order. -/
def detectAntiPatterns (sql : Str) : List Str :=
  (if goContains sql (str "select *") then [str "select-star"] else []) ++
  (if goContains sql (str "like '%") then [str "leading-wildcard-like"] else []) ++
  (if !goContains sql (str "limit") &&
      (goContains sql (str "join") || goContains sql (str "order by")) then
    [str "missing-limit"] else []) ++
  (if goContains sql (str " from ") && countChar sql ',' > 0 &&
      !goContains sql (str "join") then
    [str "cartesian-join"] else []) ++
  (if funcInWhereMatch sql then [str "function-in-where"] else []) ++
  (if subqueryCount sql > 0 && goContains sql (str "in (") then
    [str "subquery-instead-of-join"] else []) ++
  (if goContains sql (str "order by") && !goContains sql (str "limit") then
    [str "order-without-limit"] else [])

/-- The `switch` inside `identifyOptimizations`: the 1:1 anti-pattern
to technique mapping (unknown tags contribute nothing). -/
def mapAntiPattern (p : Str) : Option Str :=
  if p = str "select-star" then some (str "specify-columns")
  else if p = str "leading-wildcard-like" then some (str "optimize-like-patterns")
  else if p = str "missing-limit" then some (str "add-limit-clause")
  else if p = str "cartesian-join" then some (str "explicit-join-syntax")
  else if p = str "function-in-where" then some (str "move-functions-to-select")
  else if p = str "subquery-instead-of-join" then some (str "convert-to-join")
  else if p = str "order-without-limit" then some (str "add-result-limiting")
  else none

/-- Model of `identifyOptimizations`. -/
def identifyOptimizations (sql : Str) (antiPatterns : List Str) : List Str :=
  antiPatterns.filterMap mapAntiPattern ++
  (if goContains sql (str "group by") then [str "index-group-by-columns"] else []) ++
  (if goContains sql (str "join") then [str "index-join-columns"] else []) ++
  (if goContains sql (str "where") && !goContains sql (str "index") then
    [str "index-where-columns"] else [])

/-- Model of `assessComplexity`. -/
def assessComplexity (sql : Str) (tableCount : Nat) : Str :=
  let s1 : Nat := if tableCount ≥ 4 then 3 else if tableCount ≥ 2 then 1 else 0
  let s2 := s1 + joinCount sql
  let s3 := s2 + subqueryCount sql * 2
  let s4 := s3 + (if goContains sql (str "group by") then 1 else 0)
  let s5 := s4 + (if goContains sql (str "having") then 1 else 0)
  let s6 := s5 + (if goContains sql (str "window") || goContains sql (str "over(")
                  then 2 else 0)
  let score := s6 + (if goContains sql (str "union") then 2 else 0)
  if score ≥ 6 then str "complex"
  else if score ≥ 3 then str "medium"
  else str "simple"

/-- The `keywordMap` of `extractKeywords`, in the order the source
lists its entries. The source ranges over this Go map, whose iteration
order is unspecified and deliberately randomized by the Go runtime, so
the analyzer is parametrized below by the iteration order actually
used (any permutation of these pairs). -/
def keywordPairs : List (Str × Str) :=
  [(str "join", str "joins"),
   (str "index", str "indexes"),
   (str "group by", str "aggregation"),
   (str "order by", str "sorting"),
   (str "limit", str "limiting"),
   (str "where", str "filtering"),
   (str "having", str "aggregation"),
   (str "distinct", str "deduplication"),
   (str "union", str "set-operations"),
   (str "exists", str "subqueries"),
   (str "in (", str "subqueries"),
   (str "like", str "pattern-matching")]

/-- Model of `extractKeywords`, with the map iteration order `ko` explicit. -/
def extractKeywords (ko : List (Str × Str)) (sql : Str) : List Str :=
  dedupFirst []
    (ko.filterMap fun kv => if goContains sql kv.1 then some kv.2 else none)

/-- Model of `QueryPattern`. -/
structure QueryPattern where
  qtype : Str
  tables : List Str
  antiPatterns : List Str
  optimizationOps : List Str
  complexity : Str
  keywords : List Str
deriving DecidableEq, Repr

/-- Model of `AnalyzeQuery`, parametrized by the keyword-map iteration order
`ko` (see `keywordPairs`). -/
def analyzeQuery (ko : List (Str × Str)) (sqlIn : Str) : QueryPattern :=
  let sql := goTrimSpace sqlIn
  let sqlLower := strToLower sql
  let aps := detectAntiPatterns sqlLower
  let tables := extractTables sql
  { qtype := detectQueryType sqlLower
    tables := tables
    antiPatterns := aps
    optimizationOps := identifyOptimizations sqlLower aps
    complexity := assessComplexity sqlLower tables.length
    keywords := extractKeywords ko sqlLower }

/-- Claim C3 (code_bug). `extractKeywords` ranges over a Go map; Go's map
iteration order is unspecified and randomized per loop, so repeated
calls of `AnalyzeQuery` on the same SQL can return the `Keywords` list
in different orders. Two legal iteration orders — the source-listed
pair order and its reverse, a permutation of the same map entries —
produce different `QueryPattern` values on a query containing two
keywords, refuting the claimed determinism of the result including
keyword order. -/
theorem analyzeQuery_keyword_order_dependent :
    keywordPairs.reverse.Perm keywordPairs ∧
      analyzeQuery keywordPairs (str "select id from t where name like 'a%'") ≠
        analyzeQuery keywordPairs.reverse (str "select id from t where name like 'a%'") :=
  ⟨List.reverse_perm _, by decide⟩

/-- Claim C4 (counterexample). On
`SELECT id,name FROM products WHERE name LIKE '%widget%' ORDER BY created_at`
the classifier checks `group by`/`order by` before `like` + `%`, so the
type is not `pattern-search` as claimed. -/
theorem analyzeQuery_c4_not_pattern_search :
    (analyzeQuery keywordPairs
      (str "SELECT id,name FROM products WHERE name LIKE '%widget%' ORDER BY created_at")).qtype
      ≠ str "pattern-search" := by decide

/-- Claim C4 (corrected). On the same query the type is `aggregation`
(the `order by` branch fires first), and the anti-pattern list does
contain `leading-wildcard-like`, `order-without-limit` and
`missing-limit`, for every keyword-map iteration order. -/
theorem analyzeQuery_c4_aggregation (ko : List (Str × Str)) :
    (analyzeQuery ko
      (str "SELECT id,name FROM products WHERE name LIKE '%widget%' ORDER BY created_at")).qtype
        = str "aggregation" ∧
    str "leading-wildcard-like" ∈ (analyzeQuery ko
      (str "SELECT id,name FROM products WHERE name LIKE '%widget%' ORDER BY created_at")).antiPatterns ∧
    str "order-without-limit" ∈ (analyzeQuery ko
      (str "SELECT id,name FROM products WHERE name LIKE '%widget%' ORDER BY created_at")).antiPatterns ∧
    str "missing-limit" ∈ (analyzeQuery ko
      (str "SELECT id,name FROM products WHERE name LIKE '%widget%' ORDER BY created_at")).antiPatterns := by
  have hq : ∀ s, (analyzeQuery ko s).qtype = detectQueryType (strToLower (goTrimSpace s)) :=
    fun s => rfl
  have ha : ∀ s, (analyzeQuery ko s).antiPatterns
      = detectAntiPatterns (strToLower (goTrimSpace s)) := fun s => rfl
  rw [hq, ha]
  refine ⟨by decide, by decide, by decide, by decide⟩

theorem goToLowerChar_ne_upper_S (c : Char) : goToLowerChar c ≠ 'S' := by
  unfold goToLowerChar
  split <;> first | decide | assumption

theorem mem_strToLower_ne_S {x : Char} {s : Str} (hx : x ∈ strToLower s) : x ≠ 'S' := by
  simp only [strToLower, List.mem_map] at hx
  obtain ⟨c, -, rfl⟩ := hx
  exact goToLowerChar_ne_upper_S c

theorem goContains_mem {c : Char} :
    ∀ {s sub : Str}, goContains s sub = true → c ∈ sub → c ∈ s := by
  intro s
  induction s with
  | nil =>
    intro sub h hc
    unfold goContains at h
    split at h
    · cases sub with
      | nil => cases hc
      | cons a t => simp [List.isPrefixOf] at *
    · cases h
  | cons a t ih =>
    intro sub h hc
    unfold goContains at h
    split at h
    · next hp =>
      exact (List.isPrefixOf_iff_prefix.mp hp).subset hc
    · exact List.mem_cons_of_mem a (ih h hc)

theorem mem_takeWhile_mem {p : Char → Bool} {x : Char} :
    ∀ {l : List Char}, x ∈ l.takeWhile p → x ∈ l := by
  intro l
  induction l with
  | nil => simp
  | cons a t ih =>
    intro hx
    rw [List.takeWhile_cons] at hx
    split at hx
    · rcases List.mem_cons.mp hx with h | h
      · exact h ▸ List.mem_cons_self a t
      · exact List.mem_cons_of_mem a (ih h)
    · cases hx

theorem subqAfterParen_has_S {t r : Str} (h : subqAfterParen t = some r) : 'S' ∈ t := by
  unfold subqAfterParen at h
  split at h
  · split at h
    · next hcont =>
      exact mem_takeWhile_mem (goContains_mem hcont (by decide))
    · cases h
  · cases h

theorem subqueryScan_zero :
    ∀ fuel (s : Str), (∀ x ∈ s, x ≠ 'S') → subqueryScan fuel s = 0 := by
  intro fuel
  induction fuel with
  | zero => intro s _; cases s <;> rfl
  | succ n ih =>
    intro s h
    cases s with
    | nil => rfl
    | cons c t =>
      have ht : ∀ x ∈ t, x ≠ 'S' := fun x hx => h x (List.mem_cons_of_mem c hx)
      have hnone : subqAfterParen t = none := by
        cases heq : subqAfterParen t with
        | none => rfl
        | some r => exact absurd rfl (ht 'S' (subqAfterParen_has_S heq))
      unfold subqueryScan
      split
      · simp [hnone, ih t ht]
      · exact ih t ht

theorem mapAnti_conv (a : Str) (hmap : mapAntiPattern a = some (str "convert-to-join")) :
    a = str "subquery-instead-of-join" := by
  revert hmap
  unfold mapAntiPattern
  split_ifs <;> intro hmap <;>
    first
      | assumption
      | (exact absurd (Option.some.inj hmap) (by decide))
      | cases hmap

theorem mem_ite_singleton {b : Bool} {x y : Str} (h : x ∈ if b then [y] else []) :
    x = y := by
  split at h
  · exact List.mem_singleton.mp h
  · cases h

/-- Claim C8 (code_bug). `subqueryRegex` matches a literal uppercase
`SELECT`, but `detectAntiPatterns` and `assessComplexity` apply it to
the lowercased SQL, where no uppercase `S` can occur. Hence for every
SQL input — in particular inputs containing a parenthesized sub-select
and `in (`, whose premise the last two conjuncts exhibit on the
concrete input `select * from t where id in (select id from u)` —
the anti-pattern `subquery-instead-of-join` is never reported and the
`convert-to-join` opportunity is never suggested. -/
theorem subquery_anti_pattern_unreachable (ko : List (Str × Str)) (sql : Str) :
    str "subquery-instead-of-join" ∉ (analyzeQuery ko sql).antiPatterns ∧
    str "convert-to-join" ∉ (analyzeQuery ko sql).optimizationOps ∧
    goContains (strToLower (str "select * from t where id in (select id from u)"))
      (str "in (") = true ∧
    goContains (strToLower (str "select * from t where id in (select id from u)"))
      (str "(select") = true := by
  have ha : (analyzeQuery ko sql).antiPatterns
      = detectAntiPatterns (strToLower (goTrimSpace sql)) := rfl
  have ho : (analyzeQuery ko sql).optimizationOps
      = identifyOptimizations (strToLower (goTrimSpace sql))
          (detectAntiPatterns (strToLower (goTrimSpace sql))) := rfl
  have hS : ∀ x ∈ strToLower (goTrimSpace sql), x ≠ 'S' :=
    fun x hx => mem_strToLower_ne_S hx
  have hcount : subqueryCount (strToLower (goTrimSpace sql)) = 0 :=
    subqueryScan_zero _ _ hS
  have hap : str "subquery-instead-of-join"
      ∉ detectAntiPatterns (strToLower (goTrimSpace sql)) := by
    intro hmem
    unfold detectAntiPatterns at hmem
    simp only [List.mem_append, hcount] at hmem
    rcases hmem with ((((((h | h) | h) | h) | h) | h) | h) <;>
      (split at h <;>
        first
          | (revert h; decide)
          | simp_all)
  refine ⟨by rw [ha]; exact hap, ?_, by decide, by decide⟩
  rw [ho]
  intro hmem
  unfold identifyOptimizations at hmem
  simp only [List.mem_append] at hmem
  rcases hmem with ((h | h) | h) | h
  · rcases List.mem_filterMap.mp h with ⟨a, hak, hmap⟩
    have he := mapAnti_conv a hmap
    subst he
    exact hap hak
  · exact absurd (mem_ite_singleton h) (by decide)
  · exact absurd (mem_ite_singleton h) (by decide)
  · exact absurd (mem_ite_singleton h) (by decide)

/-! ## Optimization engine (`internal/analyze/engine.go`) -/

/-- Model of `LLMResponse`. -/
structure LLMResponse where
  proposedSQL : Str
  rationale : Str
  expectedPlanChange : Str
  caveats : Str
deriving DecidableEq, Repr

/-- The `switch pattern.Complexity` adjustment inside
`calculateConfidenceScore`. -/
def complexityAdjustment (c : Str) : ℚ :=
  if c = str "simple" then 3/10
  else if c = str "medium" then 1/10
  else if c = str "complex" then -(1/10)
  else 0

/-- The pre-clamp sum of `calculateConfidenceScore`: base 0.5, the
complexity adjustment, +0.2 for any anti-pattern, +0.15 for more than
two optimization opportunities, +0.1 for each of rationale /
expected-plan-change longer than 50, +0.05 if the proposed SQL
mentions "index" (case-insensitively). -/
def rawConfidenceScore (pattern : QueryPattern) (response : LLMResponse) : ℚ :=
  1/2 + complexityAdjustment pattern.complexity
    + (if pattern.antiPatterns.length > 0 then 2/10 else 0)
    + (if pattern.optimizationOps.length > 2 then 15/100 else 0)
    + (if response.rationale.length > 50 then 1/10 else 0)
    + (if response.expectedPlanChange.length > 50 then 1/10 else 0)
    + (if goContains (strToLower response.proposedSQL) (str "index")
       then 5/100 else 0)

/-- Model of `calculateConfidenceScore`: the additive model of
`rawConfidenceScore`, then the source's two clamps into [0.1, 1.0].
`float64` arithmetic is modelled over `ℚ`; all constants are exactly
representable decimals and every comparison against the clamp bounds
is decided identically. -/
def calculateConfidenceScore (pattern : QueryPattern) (response : LLMResponse) : ℚ :=
  let score := rawConfidenceScore pattern response
  let score1 := if score > 1 then 1 else score
  if score1 < 1/10 then 1/10 else score1

theorem complexityAdjustment_bounds (c : Str) :
    -(1/10) ≤ complexityAdjustment c ∧ complexityAdjustment c ≤ 3/10 := by
  unfold complexityAdjustment
  split_ifs <;> norm_num

theorem ite_add_nonneg {c : Prop} [Decidable c] {x : ℚ} (hx : 0 ≤ x) :
    0 ≤ if c then x else 0 := by
  split
  · exact hx
  · exact le_refl 0

theorem rawConfidenceScore_lower (pattern : QueryPattern) (response : LLMResponse) :
    2/5 ≤ rawConfidenceScore pattern response := by
  have hadj := (complexityAdjustment_bounds pattern.complexity).1
  have t2 : (0:ℚ) ≤ if pattern.antiPatterns.length > 0 then 2/10 else 0 :=
    ite_add_nonneg (by norm_num)
  have t3 : (0:ℚ) ≤ if pattern.optimizationOps.length > 2 then 15/100 else 0 :=
    ite_add_nonneg (by norm_num)
  have t4 : (0:ℚ) ≤ if response.rationale.length > 50 then 1/10 else 0 :=
    ite_add_nonneg (by norm_num)
  have t5 : (0:ℚ) ≤ if response.expectedPlanChange.length > 50 then 1/10 else 0 :=
    ite_add_nonneg (by norm_num)
  have t6 : (0:ℚ) ≤ if goContains (strToLower response.proposedSQL) (str "index")
      then 5/100 else 0 :=
    ite_add_nonneg (by norm_num)
  unfold rawConfidenceScore
  linarith

/-- Claim C6 (confirmed). For every `(QueryPattern, LLMResponse)` pair —
including ones with empty rationale and plan-change strings — the
confidence score of the additive model lies within [0.1, 1.0]. -/
theorem confidenceScore_clamped (pattern : QueryPattern) (response : LLMResponse) :
    1/10 ≤ calculateConfidenceScore pattern response ∧
      calculateConfidenceScore pattern response ≤ 1 := by
  constructor <;>
    (simp only [calculateConfidenceScore]; split_ifs <;> norm_num <;> linarith)

/-- Claim C10 (confirmed). For every `(QueryPattern, LLMResponse)` pair
the confidence score is at least 0.4: the only negative contribution is
the −0.1 complex-complexity adjustment from the 0.5 base, so the lower
clamp to 0.1 can never fire. -/
theorem confidenceScore_lower_bound (pattern : QueryPattern) (response : LLMResponse) :
    2/5 ≤ calculateConfidenceScore pattern response := by
  have hraw := rawConfidenceScore_lower pattern response
  simp only [calculateConfidenceScore]
  split_ifs <;> norm_num <;> linarith

/-! ## LLM response parser (`parseLLMResponse`)

Four Go regexps are applied with `FindStringSubmatch` (leftmost match,
then Go's first-preference backtracking order):

* `(?s)PROPOSED_SQL:\s*```sql\s*(.*?)\s*``` — each greedy `\s*` here is
  deterministic (the following character is a backquote, never
  whitespace), and the lazy capture takes the least length whose
  remainder, after the whitespace run, starts the closing fence;
* `(?s)RATIONALE:\s*(.*?)(?:\n\n|EXPECTED_PLAN_CHANGE:)` — the greedy
  `\s*` prefers the longest whitespace run and backtracks one character
  at a time, and for each retained run the lazy capture takes the least
  length at which a terminator starts;
* likewise for `EXPECTED_PLAN_CHANGE` (terminators `\n\n` / `CAVEATS:`)
  and `CAVEATS` (terminators `\n\n` / end of text). -/

/-- Lazy capture for the `PROPOSED_SQL` pattern: the shortest prefix
whose remainder is `\s*````…. -/
def sqlLazyCap : Str → Option Str
  | [] => none
  | c :: t =>
    if (str "```").isPrefixOf ((c :: t).dropWhile isWsRe) then some []
    else (sqlLazyCap t).map (c :: ·)

/-- One attempt of the `PROPOSED_SQL` pattern at the current position. -/
def sqlBlockAt (s : Str) : Option Str := do
  let s1 ← stripLit (str "PROPOSED_SQL:") s
  let s2 ← stripLit (str "```sql") (s1.dropWhile isWsRe)
  sqlLazyCap (s2.dropWhile isWsRe)

/-- Leftmost match of the `PROPOSED_SQL` pattern (capture group 1). -/
def sqlBlockExtract : Str → Option Str
  | [] => sqlBlockAt []
  | s@(_ :: t) =>
    match sqlBlockAt s with
    | some cap => some cap
    | none => sqlBlockExtract t

/-- Does a terminator of a section pattern start here? -/
def termStarts (terms : List Str) (allowEos : Bool) (r : Str) : Bool :=
  terms.any (·.isPrefixOf r) || (allowEos && r.isEmpty)

/-- Lazy capture for a section pattern: the shortest prefix whose
remainder starts a terminator. -/
def sectionLazyCap (terms : List Str) (allowEos : Bool) : Str → Option Str
  | [] => if termStarts terms allowEos [] then some [] else none
  | c :: t =>
    if termStarts terms allowEos (c :: t) then some []
    else (sectionLazyCap terms allowEos t).map (c :: ·)

/-- The backtracking of the greedy `\s*` before the lazy capture:
`j` characters of the whitespace run are retained (tried longest
first). -/
def sectionGreedyWs (terms : List Str) (allowEos : Bool) (s1 : Str) : Nat → Option Str
  | 0 => sectionLazyCap terms allowEos s1
  | j + 1 =>
    match sectionLazyCap terms allowEos (s1.drop (j + 1)) with
    | some cap => some cap
    | none => sectionGreedyWs terms allowEos s1 j

/-- One attempt of a section pattern at the current position. -/
def sectionAt (marker : Str) (terms : List Str) (allowEos : Bool) (s : Str) :
    Option Str := do
  let s1 ← stripLit marker s
  sectionGreedyWs terms allowEos s1 (s1.takeWhile isWsRe).length

/-- Leftmost match of a section pattern (capture group 1). -/
def sectionExtract (marker : Str) (terms : List Str) (allowEos : Bool) :
    Str → Option Str
  | [] => sectionAt marker terms allowEos []
  | s@(_ :: t) =>
    match sectionAt marker terms allowEos s with
    | some cap => some cap
    | none => sectionExtract marker terms allowEos t

/-- The post-processing applied to the three text sections:
`TrimSpace`, remove `"• "`, turn newlines into spaces. -/
def cleanSection (cap : Str) : Str :=
  replaceAll (str "\n") (str " ") (replaceAll (str "• ") (str "") (goTrimSpace cap))

/-- Error classes surfaced by the engine (`fmt.Errorf` wrapping of the
pipeline steps, and the review-transition failure). -/
inductive EngineError where
  | promptBuildFailure
  | generationFailure
  | parseFailure
  | notFoundOrReviewed
deriving DecidableEq, Repr

/-- Model of `parseLLMResponse`: extract the four sections; a missing or empty
`PROPOSED_SQL` is the hard failure
("failed to extract optimized SQL from LLM response"). -/
def parseLLMResponse (response : Str) : Except EngineError LLMResponse :=
  let psql := match sqlBlockExtract response with
    | some cap => goTrimSpace cap
    | none => []
  let rat := match sectionExtract (str "RATIONALE:")
      [str "\n\n", str "EXPECTED_PLAN_CHANGE:"] false response with
    | some cap => cleanSection cap
    | none => []
  let plan := match sectionExtract (str "EXPECTED_PLAN_CHANGE:")
      [str "\n\n", str "CAVEATS:"] false response with
    | some cap => cleanSection cap
    | none => []
  let cav := match sectionExtract (str "CAVEATS:") [str "\n\n"] true response with
    | some cap => cleanSection cap
    | none => []
  if psql = [] then .error .parseFailure
  else .ok ⟨psql, rat, plan, cav⟩

/-- A row of the `app_rewrites` table
(`storeOptimizationResult`'s INSERT column list). -/
structure RewriteRow where
  id : Nat
  slowQueryId : Nat
  originalSQL : Str
  optimizedSQL : Str
  pattern : QueryPattern
  rationale : Str
  expectedImprovement : Str
  caveats : Str
  confidenceScore : ℚ
  status : Str
  createdAt : Nat
  reviewedAt : Option Nat
deriving DecidableEq, Repr

/-- Model of `OptimizationResult` as returned to the caller. -/
structure OptimizationResult where
  id : Nat
  originalSQL : Str
  optimizedSQL : Str
  pattern : QueryPattern
  rationale : Str
  expectedImprovement : Str
  caveats : Str
  confidenceScore : ℚ
  status : Str
  createdAt : Nat
  reviewedAt : Option Nat
deriving DecidableEq, Repr

/-- Model of `OptimizeQuery`: analyze → build prompt → generate → parse → score
→ persist. The two collaborators are passed as explicit outcomes: the
prompt builder (whose retrieval runs against the external document
store) as its `Except` result, the generator as a function of the
prompt. The backing store is a row list threaded through; the returned
pair carries the call's outcome and the store after the call, so a
failing call leaves the store component unchanged. `now`/`nextId`
stand for `time.Now()` and the row id the INSERT assigns. -/
def optimizeQuery (ko : List (Str × Str)) (slowQueryId : Nat) (sql : Str)
    (promptResult : Except EngineError Str)
    (generate : Str → Except EngineError Str)
    (now : Nat) (nextId : Nat) (store : List RewriteRow) :
    Except EngineError OptimizationResult × List RewriteRow :=
  let pattern := analyzeQuery ko sql
  match promptResult with
  | .error _ => (.error .promptBuildFailure, store)
  | .ok prompt =>
    match generate prompt with
    | .error _ => (.error .generationFailure, store)
    | .ok raw =>
      match parseLLMResponse raw with
      | .error _ => (.error .parseFailure, store)
      | .ok parsed =>
        let conf := calculateConfidenceScore pattern parsed
        let row : RewriteRow :=
          { id := nextId
            slowQueryId := slowQueryId
            originalSQL := sql
            optimizedSQL := parsed.proposedSQL
            pattern := pattern
            rationale := parsed.rationale
            expectedImprovement := parsed.expectedPlanChange
            caveats := parsed.caveats
            confidenceScore := conf
            status := str "pending"
            createdAt := now
            reviewedAt := none }
        (.ok
          { id := nextId
            originalSQL := sql
            optimizedSQL := parsed.proposedSQL
            pattern := pattern
            rationale := parsed.rationale
            expectedImprovement := parsed.expectedPlanChange
            caveats := parsed.caveats
            confidenceScore := conf
            status := str "pending"
            createdAt := now
            reviewedAt := none },
          store ++ [row])

/-- The row filter of the review UPDATE statements:
`WHERE id = ? AND status = 'pending'`. -/
def reviewHit (id : Nat) (r : RewriteRow) : Bool :=
  r.id = id && r.status = str "pending"

/-- The UPDATE shared by `AcceptOptimization` and `RejectOptimization`
(`SET status = …, reviewed_at = NOW() WHERE id = ? AND status =
'pending'`; zero rows affected yields the
"optimization not found or already reviewed" error). -/
def reviewUpdate (newStatus : Str) (now : Nat) (id : Nat) (tbl : List RewriteRow) :
    Except EngineError Unit × List RewriteRow :=
  let tbl2 := tbl.map fun r =>
    if reviewHit id r then { r with status := newStatus, reviewedAt := some now }
    else r
  let affected := tbl.countP (reviewHit id)
  if affected = 0 then (.error .notFoundOrReviewed, tbl2) else (.ok (), tbl2)

/-- Model of `AcceptOptimization`. -/
def acceptOptimization (now id : Nat) (tbl : List RewriteRow) :
    Except EngineError Unit × List RewriteRow :=
  reviewUpdate (str "accepted") now id tbl

/-- Model of `RejectOptimization`. -/
def rejectOptimization (now id : Nat) (tbl : List RewriteRow) :
    Except EngineError Unit × List RewriteRow :=
  reviewUpdate (str "rejected") now id tbl

/-- Keyed lookup in the row list (`WHERE id = ?`). -/
def findRow (id : Nat) (tbl : List RewriteRow) : Option RewriteRow :=
  tbl.find? fun r => r.id = id

theorem sectionExtract_marker_absent (marker : Str) (terms : List Str) (eos : Bool) :
    ∀ s : Str, goContains s marker = false → sectionExtract marker terms eos s = none := by
  intro s
  induction s with
  | nil =>
    intro h
    unfold goContains at h
    split at h
    · cases h
    · next hp =>
      unfold sectionExtract sectionAt stripLit
      simp [hp]
  | cons c t ih =>
    intro h
    unfold goContains at h
    split at h
    · cases h
    · next hp =>
      have hAt : sectionAt marker terms eos (c :: t) = none := by
        unfold sectionAt stripLit
        simp [hp]
      unfold sectionExtract
      rw [hAt]
      exact ih h

/-- Claim C2 (confirmed). If the generator's response admits no
`PROPOSED_SQL:` marker followed by a ```` ```sql ```` fenced block
(the block extractor finds no match), `OptimizeQuery` fails with the
parse error and the backing store is returned unchanged — nothing is
persisted. When a `PROPOSED_SQL` block is extractable (and nonempty
after trimming), absence of the `RATIONALE:`, `EXPECTED_PLAN_CHANGE:`
and `CAVEATS:` markers degrades those fields to the empty string while
parsing still succeeds. -/
theorem optimizeQuery_parse_error_persists_nothing
    (ko : List (Str × Str)) (slowQueryId : Nat) (sql prompt resp : Str)
    (now nextId : Nat) (store : List RewriteRow) (resp2 cap : Str)
    (h1 : sqlBlockExtract resp = none)
    (h2 : sqlBlockExtract resp2 = some cap)
    (h3 : goTrimSpace cap ≠ [])
    (h4 : goContains resp2 (str "RATIONALE:") = false)
    (h5 : goContains resp2 (str "EXPECTED_PLAN_CHANGE:") = false)
    (h6 : goContains resp2 (str "CAVEATS:") = false) :
    optimizeQuery ko slowQueryId sql (.ok prompt) (fun _ => .ok resp) now nextId store
      = (.error .parseFailure, store) ∧
    parseLLMResponse resp2 = .ok ⟨goTrimSpace cap, [], [], []⟩ := by
  have hparse : parseLLMResponse resp = .error .parseFailure := by
    unfold parseLLMResponse
    rw [h1]
    simp
  constructor
  · simp only [optimizeQuery]
    rw [hparse]
  · unfold parseLLMResponse
    rw [h2, sectionExtract_marker_absent _ _ _ _ h4,
      sectionExtract_marker_absent _ _ _ _ h5,
      sectionExtract_marker_absent _ _ _ _ h6]
    simp [h3]

/-- Witness for C2: a response with no `PROPOSED_SQL:` marker makes the
pipeline fail and keeps the (empty) store unchanged; a response holding
only a `PROPOSED_SQL` block parses with the other fields empty. -/
theorem optimizeQuery_parse_error_persists_nothing_witness :
    sqlBlockExtract (str "no marker here") = none ∧
    sqlBlockExtract (str "PROPOSED_SQL:\n```sql\nSELECT 1\n```") = some (str "SELECT 1") ∧
    goTrimSpace (str "SELECT 1") ≠ [] ∧
    goContains (str "PROPOSED_SQL:\n```sql\nSELECT 1\n```") (str "RATIONALE:") = false ∧
    goContains (str "PROPOSED_SQL:\n```sql\nSELECT 1\n```")
      (str "EXPECTED_PLAN_CHANGE:") = false ∧
    goContains (str "PROPOSED_SQL:\n```sql\nSELECT 1\n```") (str "CAVEATS:") = false ∧
    (optimizeQuery keywordPairs 1 (str "select 1") (.ok (str "p"))
        (fun _ => .ok (str "no marker here")) 0 1 []
      = (.error .parseFailure, []) ∧
     parseLLMResponse (str "PROPOSED_SQL:\n```sql\nSELECT 1\n```")
      = .ok ⟨goTrimSpace (str "SELECT 1"), [], [], []⟩) :=
  ⟨by decide, by decide, by decide, by decide, by decide, by decide,
   optimizeQuery_parse_error_persists_nothing keywordPairs 1 (str "select 1")
     (str "p") (str "no marker here") 0 1 []
     (str "PROPOSED_SQL:\n```sql\nSELECT 1\n```") (str "SELECT 1")
     (by decide) (by decide) (by decide) (by decide) (by decide) (by decide)⟩

theorem list_map_id_of {α : Type} (f : α → α) :
    ∀ l : List α, (∀ x ∈ l, f x = x) → l.map f = l := by
  intro l
  induction l with
  | nil => intro _; rfl
  | cons a t ih =>
    intro h
    simp only [List.map_cons, h a (List.mem_cons_self a t),
      ih (fun x hx => h x (List.mem_cons_of_mem a hx))]

theorem reviewUpdate_snd (st : Str) (now id : Nat) (tbl : List RewriteRow) :
    (reviewUpdate st now id tbl).2 = tbl.map fun r =>
      if reviewHit id r then { r with status := st, reviewedAt := some now }
      else r := by
  simp only [reviewUpdate]
  split <;> rfl

theorem reviewUpdate_ok (st : Str) (now id : Nat) (tbl : List RewriteRow)
    (r : RewriteRow) (hmem : r ∈ tbl) (hhit : reviewHit id r = true) :
    (reviewUpdate st now id tbl).1 = .ok () := by
  have hpos : 0 < tbl.countP (reviewHit id) := List.countP_pos_iff.mpr ⟨r, hmem, hhit⟩
  simp only [reviewUpdate]
  split
  · next hz => omega
  · rfl

theorem reviewUpdate_no_hit (st : Str) (now id : Nat) (tbl : List RewriteRow)
    (h : ∀ q ∈ tbl, reviewHit id q = false) :
    reviewUpdate st now id tbl = (.error .notFoundOrReviewed, tbl) := by
  have hz : tbl.countP (reviewHit id) = 0 :=
    List.countP_eq_zero.mpr (by intro a ha; simp [h a ha])
  have hmap : (tbl.map fun r =>
      if reviewHit id r then { r with status := st, reviewedAt := some now }
      else r) = tbl :=
    list_map_id_of _ tbl (fun q hq => by simp [h q hq])
  simp only [reviewUpdate]
  simp [hz, hmap]

theorem reviewUpdate_clears_hits (st : Str) (now id : Nat) (tbl : List RewriteRow)
    (hst : st ≠ str "pending") :
    ∀ q ∈ (reviewUpdate st now id tbl).2, reviewHit id q = false := by
  rw [reviewUpdate_snd]
  intro q hq
  rcases List.mem_map.mp hq with ⟨p, hp, rfl⟩
  by_cases hh : reviewHit id p = true
  · rw [if_pos hh]
    show (decide (p.id = id) && decide (st = str "pending")) = false
    simp [hst]
  · rw [if_neg hh]
    exact Bool.eq_false_iff.mpr hh

theorem findRow_reviewUpdate (st : Str) (now id : Nat) :
    ∀ (tbl : List RewriteRow) (r : RewriteRow),
      (tbl.map RewriteRow.id).Nodup → r ∈ tbl → r.id = id →
      r.status = str "pending" →
      findRow id (reviewUpdate st now id tbl).2
        = some { r with status := st, reviewedAt := some now } := by
  intro tbl
  induction tbl with
  | nil => intro r _ hmem; cases hmem
  | cons a t ih =>
    intro r hnd hmem hid hpend
    rw [reviewUpdate_snd]
    simp only [List.map_cons]
    rw [List.map_cons] at hnd
    have hnd2 := List.nodup_cons.mp hnd
    by_cases hcase : a.id = id
    · have hra : r = a := by
        rcases List.mem_cons.mp hmem with h | h
        · exact h
        · exact absurd (by rw [hcase, ← hid]; exact List.mem_map_of_mem RewriteRow.id h)
            hnd2.1
      subst hra
      have hu : (if reviewHit id r then { r with status := st, reviewedAt := some now }
          else r) = { r with status := st, reviewedAt := some now } := by
        simp [reviewHit, hid, hpend]
      rw [hu]
      unfold findRow
      rw [List.find?_cons_of_pos _ (by simp [hid])]
    · have hra : r ∈ t := by
        rcases List.mem_cons.mp hmem with h | h
        · exact absurd (h ▸ hid) hcase
        · exact h
      have hu : (if reviewHit id a then { a with status := st, reviewedAt := some now }
          else a) = a := by
        simp [reviewHit, hcase]
      rw [hu]
      unfold findRow
      rw [List.find?_cons_of_neg _ (by simp [hcase])]
      have hres := ih r hnd2.2 hra hid hpend
      rw [reviewUpdate_snd] at hres
      exact hres

/-- Claim C5 (confirmed). Accept and reject succeed exactly on records
whose current status is `pending` (a guarded UPDATE matching
`id = ? AND status = 'pending'`): on that transition the record's
`reviewedAt` is set to the transition time; afterwards any further
accept or reject of the same id fails with the
"not found or already reviewed" error and leaves the store unchanged,
so `reviewedAt` is set exactly once; and on a store whose rows of that
id are not pending (or absent), both operations fail the same way and
change nothing. -/
theorem review_transitions_pending_once
    (tbl : List RewriteRow) (id t1 t2 : Nat) (r : RewriteRow)
    (hmem : r ∈ tbl) (hid : r.id = id) (hpend : r.status = str "pending")
    (hnd : (tbl.map RewriteRow.id).Nodup)
    (tbl0 : List RewriteRow)
    (h0 : ∀ q ∈ tbl0, q.id = id → q.status ≠ str "pending") :
    (acceptOptimization t1 id tbl).1 = .ok () ∧
    findRow id (acceptOptimization t1 id tbl).2
      = some { r with status := str "accepted", reviewedAt := some t1 } ∧
    (rejectOptimization t1 id tbl).1 = .ok () ∧
    findRow id (rejectOptimization t1 id tbl).2
      = some { r with status := str "rejected", reviewedAt := some t1 } ∧
    acceptOptimization t2 id (acceptOptimization t1 id tbl).2
      = (.error .notFoundOrReviewed, (acceptOptimization t1 id tbl).2) ∧
    rejectOptimization t2 id (acceptOptimization t1 id tbl).2
      = (.error .notFoundOrReviewed, (acceptOptimization t1 id tbl).2) ∧
    acceptOptimization t1 id tbl0 = (.error .notFoundOrReviewed, tbl0) ∧
    rejectOptimization t1 id tbl0 = (.error .notFoundOrReviewed, tbl0) := by
  have hhit : reviewHit id r = true := by simp [reviewHit, hid, hpend]
  have hclear := reviewUpdate_clears_hits (str "accepted") t1 id tbl (by decide)
  have h0' : ∀ q ∈ tbl0, reviewHit id q = false := by
    intro q hq
    by_cases hz : q.id = id
    · simp [reviewHit, hz, h0 q hq hz]
    · simp [reviewHit, hz]
  exact ⟨reviewUpdate_ok _ _ _ _ r hmem hhit,
    findRow_reviewUpdate _ _ _ tbl r hnd hmem hid hpend,
    reviewUpdate_ok _ _ _ _ r hmem hhit,
    findRow_reviewUpdate _ _ _ tbl r hnd hmem hid hpend,
    reviewUpdate_no_hit _ _ _ _ hclear,
    reviewUpdate_no_hit _ _ _ _ hclear,
    reviewUpdate_no_hit _ _ _ _ h0',
    reviewUpdate_no_hit _ _ _ _ h0'⟩

/-- A concrete pending row for the C5 witness. -/
def sampleRow : RewriteRow :=
  { id := 1
    slowQueryId := 7
    originalSQL := str "select 1"
    optimizedSQL := str "select 1 limit 10"
    pattern := ⟨str "basic-select", [], [], [], str "simple", []⟩
    rationale := []
    expectedImprovement := []
    caveats := []
    confidenceScore := 1/2
    status := str "pending"
    createdAt := 0
    reviewedAt := none }

/-- Witness for C5 on a one-row store holding a pending record. -/
theorem review_transitions_pending_once_witness :
    sampleRow ∈ [sampleRow] ∧ sampleRow.id = 1 ∧
    sampleRow.status = str "pending" ∧
    (([sampleRow].map RewriteRow.id).Nodup) ∧
    (∀ q ∈ ([] : List RewriteRow), q.id = 1 → q.status ≠ str "pending") ∧
    ((acceptOptimization 5 1 [sampleRow]).1 = .ok () ∧
     findRow 1 (acceptOptimization 5 1 [sampleRow]).2
       = some { sampleRow with status := str "accepted", reviewedAt := some 5 } ∧
     (rejectOptimization 5 1 [sampleRow]).1 = .ok () ∧
     findRow 1 (rejectOptimization 5 1 [sampleRow]).2
       = some { sampleRow with status := str "rejected", reviewedAt := some 5 } ∧
     acceptOptimization 9 1 (acceptOptimization 5 1 [sampleRow]).2
       = (.error .notFoundOrReviewed, (acceptOptimization 5 1 [sampleRow]).2) ∧
     rejectOptimization 9 1 (acceptOptimization 5 1 [sampleRow]).2
       = (.error .notFoundOrReviewed, (acceptOptimization 5 1 [sampleRow]).2) ∧
     acceptOptimization 5 1 [] = (.error .notFoundOrReviewed, []) ∧
     rejectOptimization 5 1 [] = (.error .notFoundOrReviewed, [])) :=
  ⟨List.mem_cons_self sampleRow [], by decide, by decide, by decide,
   fun q hq => absurd hq (List.not_mem_nil q),
   review_transitions_pending_once [sampleRow] 1 5 9 sampleRow
     (List.mem_cons_self sampleRow []) (by decide) (by decide) (by decide) []
     (fun q hq => absurd hq (List.not_mem_nil q))⟩

/-! ## Document store (`DocumentStore.addDocument`)

The persistence collaborator is a pair of row lists. The INSERT of a
chunk runs `CAST(? AS VECTOR(1536))` against the `app_embeddings`
schema (`embedding VECTOR(1536) NOT NULL`), so the database rejects
the statement — and the write loop stops with an error, keeping the
rows already inserted, as the source runs no transaction — exactly
when the embedding's length differs from the fixed 1536. The
`Embedder` capability is a record of its `Embed` outcome function and
its declared `Dim()`. -/

structure EmbedderM where
  embedFn : List Str → Option (List (List ℚ))
  dim : Nat

/-- Model of `Dim()` of the OpenAI embedder (`internal/llm/embed/openai.go`):
3072 for `text-embedding-3-large`, 1536 otherwise. -/
def openAIDim (model : Str) : Nat :=
  if model = str "text-embedding-3-large" then 3072 else 1536

/-- Model of `Document`. -/
structure DocumentM where
  id : Nat
  title : Str
  content : Str
  category : Str
  url : Str
deriving DecidableEq, Repr

/-- A row of `app_embeddings` (its opaque JSON metadata column is
omitted; no behaviour depends on it). -/
structure ChunkRow where
  docId : Nat
  chunkId : Nat
  text : Str
  embedding : List ℚ
deriving DecidableEq, Repr

/-- The document-store tables (`app_documents`, `app_embeddings`) and
the next AUTO_INCREMENT document id. -/
structure DocState where
  docs : List DocumentM
  chunks : List ChunkRow
  nextDocId : Nat
deriving DecidableEq, Repr

inductive DocErr where
  | embedFailure
  | vectorDimError
deriving DecidableEq, Repr

/-- The chunk-insert loop of `addDocument`
(`for i, chunk := range chunks { if i >= len(embeddings) { break } … }`):
each INSERT's vector CAST succeeds only for length-1536 embeddings;
the first failure stops the loop, keeping the rows already written. -/
def insertChunkLoop (docId : Nat) :
    Nat → List Str → List (List ℚ) → DocState → Except DocErr Unit × DocState
  | _, [], _, st => (.ok (), st)
  | _, _ :: _, [], st => (.ok (), st)
  | i, c :: cs, e :: es, st =>
    if e.length = 1536 then
      insertChunkLoop docId (i + 1) cs es
        { st with chunks := st.chunks ++ [⟨docId, i, c, e⟩] }
    else (.error .vectorDimError, st)

/-- Chunking (`chunkText(doc.Content, 400, 50)`) and embedding of a
document's content, then the insert loop. Since 50 < 400 the chunk
loop always terminates, so the `getD []` default is never taken. -/
def addDocChunks (E : EmbedderM) (st : DocState) (docId : Nat) (content : Str) :
    Except DocErr Unit × DocState :=
  let chunks := (chunkText content 400 50).getD []
  if chunks.isEmpty then (.ok (), st)
  else
    match E.embedFn chunks with
    | none => (.error .embedFailure, st)
    | some embeds => insertChunkLoop docId 0 chunks embeds st

/-- Model of `addDocument`: upsert by title (an update deletes the prior
chunks), then chunk + embed + insert. -/
def addDocument (E : EmbedderM) (st : DocState) (doc : DocumentM) :
    Except DocErr Unit × DocState :=
  match st.docs.find? (fun d => d.title = doc.title) with
  | none =>
    let st1 : DocState :=
      { st with docs := st.docs ++ [{ doc with id := st.nextDocId }],
                nextDocId := st.nextDocId + 1 }
    addDocChunks E st1 st.nextDocId doc.content
  | some d =>
    let st1 : DocState :=
      { st with
        docs := st.docs.map fun r =>
          if r.id = d.id then
            { r with content := doc.content, category := doc.category,
                     url := doc.url }
          else r,
        chunks := st.chunks.filter fun c => c.docId ≠ d.id }
    addDocChunks E st1 d.id doc.content

theorem insertChunkLoop_inv (docId : Nat) :
    ∀ (cs : List Str) (i : Nat) (es : List (List ℚ)) (st : DocState),
      (∀ c ∈ st.chunks, c.embedding.length = 1536) →
      ∀ c ∈ (insertChunkLoop docId i cs es st).2.chunks,
        c.embedding.length = 1536 := by
  intro cs
  induction cs with
  | nil => intro i es st h; exact h
  | cons c cs ih =>
    intro i es st h
    cases es with
    | nil => exact h
    | cons e es =>
      unfold insertChunkLoop
      split
      · next he =>
        apply ih
        intro q hq
        rcases List.mem_append.mp hq with hq | hq
        · exact h q hq
        · rw [List.mem_singleton.mp hq]
          exact he
      · exact h

theorem insertChunkLoop_err (docId : Nat) :
    ∀ (cs : List Str) (i : Nat) (es : List (List ℚ)) (st : DocState),
      (∃ p ∈ cs.zip es, p.2.length ≠ 1536) →
      (insertChunkLoop docId i cs es st).1 = .error .vectorDimError := by
  intro cs
  induction cs with
  | nil => intro i es st h; simp at h
  | cons c cs ih =>
    intro i es st h
    cases es with
    | nil => simp at h
    | cons e es =>
      by_cases he : e.length = 1536
      · have htail : ∃ p ∈ cs.zip es, p.2.length ≠ 1536 := by
          rcases h with ⟨p, hp, hlen⟩
          rcases List.mem_cons.mp (by simpa using hp) with h1 | h1
          · exact absurd (by rw [h1]; exact he) hlen
          · exact ⟨p, h1, hlen⟩
        unfold insertChunkLoop
        rw [if_pos he]
        exact ih _ _ _ htail
      · unfold insertChunkLoop
        rw [if_neg he]

theorem addDocChunks_inv (E : EmbedderM) (st : DocState) (docId : Nat)
    (content : Str) (h : ∀ c ∈ st.chunks, c.embedding.length = 1536) :
    ∀ c ∈ (addDocChunks E st docId content).2.chunks,
      c.embedding.length = 1536 := by
  simp only [addDocChunks]
  split
  · exact h
  · split
    · exact h
    · exact insertChunkLoop_inv docId _ _ _ _ h

theorem addDocChunks_err (E : EmbedderM) (st : DocState) (docId : Nat)
    (content : Str) (embeds : List (List ℚ))
    (ha : E.embedFn ((chunkText content 400 50).getD []) = some embeds)
    (hb : ∃ p ∈ ((chunkText content 400 50).getD []).zip embeds,
      p.2.length ≠ 1536) :
    (addDocChunks E st docId content).1 = .error .vectorDimError := by
  simp only [addDocChunks]
  split
  · next hemp =>
    rcases hb with ⟨p, hp, -⟩
    rw [List.isEmpty_iff.mp hemp] at hp
    simp at hp
  · rw [ha]
    exact insertChunkLoop_err docId _ _ _ _ hb

/-- Claim C9 (corrected). The store enforces the schema's fixed vector
dimension 1536, not the Embedder's declared `Dim()` (which the write
path never consults): every chunk row in the store after a write has a
length-1536 embedding (given that the prior rows do), and a write in
which any used embedding's length differs from 1536 fails with the
vector-dimension error. -/
theorem addDocument_fixed_1536
    (E : EmbedderM) (st : DocState) (doc : DocumentM)
    (hst : ∀ c ∈ st.chunks, c.embedding.length = 1536)
    (E2 : EmbedderM) (st2 : DocState) (doc2 : DocumentM)
    (embeds2 : List (List ℚ))
    (h2a : E2.embedFn ((chunkText doc2.content 400 50).getD []) = some embeds2)
    (h2b : ∃ p ∈ ((chunkText doc2.content 400 50).getD []).zip embeds2,
      p.2.length ≠ 1536) :
    (∀ c ∈ (addDocument E st doc).2.chunks, c.embedding.length = 1536) ∧
    (addDocument E2 st2 doc2).1 = .error .vectorDimError := by
  constructor
  · unfold addDocument
    split
    · exact addDocChunks_inv _ _ _ _ hst
    · apply addDocChunks_inv
      intro c hc
      exact hst c (List.mem_filter.mp hc).1
  · unfold addDocument
    split
    · exact addDocChunks_err _ _ _ _ _ h2a h2b
    · exact addDocChunks_err _ _ _ _ _ h2a h2b

/-- An embedder that reports the 1536-dimensional default and returns
length-1536 vectors. -/
def goodEmbedder : EmbedderM :=
  { embedFn := fun ts => some (ts.map fun _ => List.replicate 1536 (0 : ℚ))
    dim := 1536 }

/-- An embedder whose vectors have length 1, shorter than the schema's
1536. -/
def shortEmbedder : EmbedderM :=
  { embedFn := fun ts => some (ts.map fun _ => [(0 : ℚ)])
    dim := 1536 }

/-- The empty document store. -/
def emptyDocState : DocState := { docs := [], chunks := [], nextDocId := 1 }

/-- A small document. -/
def sampleDoc : DocumentM :=
  { id := 0, title := str "t", content := str "hello",
    category := str "c", url := str "u" }

/-- Witness for C9: a write of length-1536 embeddings keeps the
invariant; a write of length-1 embeddings fails with the
vector-dimension error. -/
theorem addDocument_fixed_1536_witness :
    (∀ c ∈ emptyDocState.chunks, c.embedding.length = 1536) ∧
    shortEmbedder.embedFn ((chunkText sampleDoc.content 400 50).getD [])
      = some [[(0 : ℚ)]] ∧
    (∃ p ∈ ((chunkText sampleDoc.content 400 50).getD []).zip [[(0 : ℚ)]],
      p.2.length ≠ 1536) ∧
    ((∀ c ∈ (addDocument goodEmbedder emptyDocState sampleDoc).2.chunks,
        c.embedding.length = 1536) ∧
     (addDocument shortEmbedder emptyDocState sampleDoc).1
       = .error .vectorDimError) :=
  ⟨fun c hc => absurd hc (List.not_mem_nil c), by decide, by decide,
   addDocument_fixed_1536 goodEmbedder emptyDocState sampleDoc
     (fun c hc => absurd hc (List.not_mem_nil c))
     shortEmbedder emptyDocState sampleDoc [[(0 : ℚ)]] (by decide) (by decide)⟩

set_option maxRecDepth 40000 in
/-- Claim C9 (counterexample). With the `text-embedding-3-large` OpenAI
embedder the declared dimension `Dim()` is 3072, yet a write whose
embeddings have length 1536 is accepted and stored: the claimed
invariant "each stored chunk's embedding length equals `Dim()`" fails
(the store checks the fixed 1536, never `Dim()`). -/
theorem addDocument_dim_mismatch_counterexample :
    openAIDim (str "text-embedding-3-large") = 3072 ∧
    (addDocument
        { embedFn := fun ts => some (ts.map fun _ => List.replicate 1536 (0 : ℚ)),
          dim := openAIDim (str "text-embedding-3-large") }
        emptyDocState sampleDoc).1 = .ok () ∧
    ((addDocument
        { embedFn := fun ts => some (ts.map fun _ => List.replicate 1536 (0 : ℚ)),
          dim := openAIDim (str "text-embedding-3-large") }
        emptyDocState sampleDoc).2.chunks.map fun c => c.embedding.length)
      = [1536] ∧
    (1536 : Nat) ≠ openAIDim (str "text-embedding-3-large") := by
  refine ⟨by decide, by decide, by decide, by decide⟩
